import Mathlib

/-!
Shallow embedding of `src/main.go` of abbychau/webhook-host.

The program keeps a global slice `requests []RequestInfo` (newest first),
a `sync.RWMutex` and a counter `nextID` starting at 1.  The three handlers
are embedded as pure functions over an explicit `ServerState`:

* `webhookHandler` (lines 50-89): flattens the incoming header multimap
  (first value wins), builds a `RequestInfo`, and in the critical section
  (lines 76-85) assigns `nextID`, increments the counter, prepends the
  record and truncates the slice to its first 100 elements when it grew
  beyond 100.  The critical section is embedded as `insert`.
* `getRequestsHandler` (lines 91-96): reads `requests` under `RLock` and
  encodes it; embedded as `getRequestsHandler` / `snapshot`.
* `clearRequestsHandler` (lines 98-107): on a non-POST method answers
  405 and returns; on POST replaces `requests` by the empty slice and
  answers 200; embedded as `clearRequestsHandler` (`clear` is the POST
  branch's mutation).

`time.Time` values are opaque to the store, so timestamps are modelled as
`Nat`; Go's `map[string]string` for the stored headers is modelled as an
association list.
-/

/-- `RequestInfo` (main.go lines 14-22): one captured request. -/
structure RequestInfo where
  id : Nat
  method : String
  url : String
  headers : List (String × String)
  body : String
  timestamp : Nat
  remoteAddr : String
deriving DecidableEq, Repr

/-- The fields of a record as the handler builds them before the critical
section (main.go lines 67-74): everything except the `ID`. -/
structure PartialRecord where
  method : String
  url : String
  headers : List (String × String)
  body : String
  timestamp : Nat
  remoteAddr : String
deriving DecidableEq, Repr

/-- The shared state guarded by `mu`: the slice `requests` (newest first)
and the counter `nextID` (main.go lines 24-28). -/
structure ServerState where
  requests : List RequestInfo
  nextID : Nat
deriving DecidableEq, Repr

/-- Initial state: `requests` is the nil slice, `nextID = 1`
(main.go lines 24-28). -/
def initialState : ServerState := { requests := [], nextID := 1 }

/-- `info` completed with its assigned id (main.go lines 67-74 and 77). -/
def mkRecord (n : Nat) (p : PartialRecord) : RequestInfo :=
  { id := n, method := p.method, url := p.url, headers := p.headers,
    body := p.body, timestamp := p.timestamp, remoteAddr := p.remoteAddr }

/-- The critical section of `webhookHandler` (main.go lines 76-85):
`info.ID = nextID; nextID++`, prepend `info`, and
`if len(requests) > 100 { requests = requests[:100] }`.
Returns the new state and the assigned id. -/
def insert (s : ServerState) (p : PartialRecord) : ServerState × Nat :=
  let info := mkRecord s.nextID p
  let reqs := info :: s.requests
  let reqs2 := if reqs.length > 100 then reqs.take 100 else reqs
  ({ requests := reqs2, nextID := s.nextID + 1 }, info.id)

/-- The header-flattening loop of `webhookHandler` (main.go lines 62-65):
`headers[k] = v[0]`.  The incoming `r.Header` is a multimap; indexing an
empty value slice would panic in Go, so the result is an `Option`. -/
def flattenHeaders (h : List (String × List String)) :
    Option (List (String × String)) :=
  h.mapM (fun kv => (kv.2.head?).map (fun v => (kv.1, v)))

/-- The whole `webhookHandler` data path for one request: flatten the
headers, build the record, run the critical section. -/
def webhookHandler (s : ServerState) (method url bodyStr remoteAddr : String)
    (hdrs : List (String × List String)) (now : Nat) :
    Option (ServerState × Nat) :=
  (flattenHeaders hdrs).map (fun headers =>
    insert s { method := method, url := url, headers := headers,
               body := bodyStr, timestamp := now, remoteAddr := remoteAddr })

/-- `getRequestsHandler` (main.go lines 91-96): reads `requests` under
`RLock` and serialises it; it performs no mutation, so it returns the
state unchanged together with the list it encodes. -/
def getRequestsHandler (s : ServerState) : ServerState × List RequestInfo :=
  (s, s.requests)

/-- The ordered history a reader observes: the `requests` slice. -/
def snapshot (s : ServerState) : List RequestInfo := s.requests

/-- The mutation in the POST branch of `clearRequestsHandler`
(main.go lines 103-105): the slice becomes empty. -/
def clear (s : ServerState) : ServerState := { s with requests := [] }

/-- `clearRequestsHandler` (main.go lines 98-107): a non-POST method gets
`http.Error(..., 405)` and the state is untouched; POST clears the slice
and answers 200. -/
def clearRequestsHandler (method : String) (s : ServerState) :
    ServerState × Nat :=
  if method ≠ "POST" then (s, 405) else (clear s, 200)

/-- Serial execution of a sequence of inserts. -/
def insertAll (s : ServerState) : List PartialRecord → ServerState
  | [] => s
  | p :: ps => insertAll (insert s p).1 ps

/-- The ids assigned along a serial run of inserts. -/
def insertAllIds (s : ServerState) : List PartialRecord → List Nat
  | [] => []
  | p :: ps => (insert s p).2 :: insertAllIds (insert s p).1 ps

/-- The full insertion history, oldest first, when the counter starts at
`n`: record `i` (0-based) gets id `n + i`. -/
def historyFrom (n : Nat) : List PartialRecord → List RequestInfo
  | [] => []
  | p :: ps => mkRecord n p :: historyFrom (n + 1) ps

section Lemmas

theorem historyFrom_length (n : Nat) (ps : List PartialRecord) :
    (historyFrom n ps).length = ps.length := by
  induction ps generalizing n with
  | nil => rfl
  | cons p ps ih => simp [historyFrom, ih]

theorem historyFrom_get? (ps : List PartialRecord) (n i : Nat) :
    (historyFrom n ps).get? i = (ps.get? i).map (fun p => mkRecord (n + i) p) := by
  induction ps generalizing n i with
  | nil => simp [historyFrom]
  | cons p ps ih =>
    cases i with
    | zero => simp [historyFrom]
    | succ j =>
      simp only [historyFrom, List.get?_cons_succ]
      rw [ih]
      have harith : n + 1 + j = n + (j + 1) := by omega
      rw [harith]

theorem take_cons_of_pos (a : RequestInfo) (l : List RequestInfo) (n : Nat)
    (h : 0 < n) : (a :: l).take n = a :: l.take (n - 1) := by
  cases n with
  | zero => omega
  | succ m => rfl

theorem insert_requests (s : ServerState) (p : PartialRecord) (L : List RequestInfo)
    (h : s.requests = L.take 100) :
    (insert s p).1.requests = (mkRecord s.nextID p :: L).take 100 := by
  have hr : (insert s p).1.requests =
      (if (mkRecord s.nextID p :: s.requests).length > 100
       then (mkRecord s.nextID p :: s.requests).take 100
       else mkRecord s.nextID p :: s.requests) := rfl
  rw [hr, h]
  by_cases hlen : L.length ≤ 99
  · have h1 : L.take 100 = L := List.take_of_length_le (by omega)
    have h2 : (mkRecord s.nextID p :: L).take 100 = mkRecord s.nextID p :: L :=
      List.take_of_length_le (by simp only [List.length_cons]; omega)
    have hc : ¬ ((mkRecord s.nextID p :: L).length > 100) := by
      simp only [List.length_cons]; omega
    rw [h1, if_neg hc, h2]
  · have h100 : (L.take 100).length = 100 := by
      rw [List.length_take]; omega
    have hc : (mkRecord s.nextID p :: L.take 100).length > 100 := by
      simp only [List.length_cons, h100]; omega
    rw [if_pos hc, take_cons_of_pos _ _ _ (by omega),
        take_cons_of_pos _ _ _ (by omega), List.take_take]
    norm_num

theorem insert_nextID (s : ServerState) (p : PartialRecord) :
    (insert s p).1.nextID = s.nextID + 1 := rfl

theorem insert_returns (s : ServerState) (p : PartialRecord) :
    (insert s p).2 = s.nextID := rfl

theorem insertAll_requests (ps : List PartialRecord) (s : ServerState)
    (L : List RequestInfo) (h : s.requests = L.take 100) :
    (insertAll s ps).requests =
      ((historyFrom s.nextID ps).reverse ++ L).take 100 := by
  induction ps generalizing s L with
  | nil => simpa [insertAll, historyFrom] using h
  | cons p ps ih =>
    have step := insert_requests s p L h
    have h2 := ih (insert s p).1 (mkRecord s.nextID p :: L) step
    rw [insert_nextID] at h2
    simp only [insertAll]
    rw [h2]
    simp [historyFrom, List.append_assoc]

theorem insertAll_nextID (ps : List PartialRecord) (s : ServerState) :
    (insertAll s ps).nextID = s.nextID + ps.length := by
  induction ps generalizing s with
  | nil => simp [insertAll]
  | cons p ps ih =>
    simp only [insertAll]
    rw [ih, insert_nextID, List.length_cons]
    omega

theorem insertAll_initial (ps : List PartialRecord) :
    (insertAll initialState ps).requests =
      ((historyFrom 1 ps).reverse).take 100 := by
  have := insertAll_requests ps initialState [] rfl
  simpa [initialState] using this

end Lemmas

section MoreLemmas

theorem snapshot_length (ps : List PartialRecord) :
    (snapshot (insertAll initialState ps)).length = min ps.length 100 := by
  have hsnap : snapshot (insertAll initialState ps) =
      ((historyFrom 1 ps).reverse).take 100 := insertAll_initial ps
  rw [hsnap, List.length_take, List.length_reverse, historyFrom_length,
    Nat.min_comm]

theorem snapshot_get? (ps : List PartialRecord) (k : Nat)
    (hk : k < min ps.length 100) :
    (snapshot (insertAll initialState ps)).get? k =
      (ps.get? (ps.length - 1 - k)).map
        (fun p => mkRecord (ps.length - k) p) := by
  have hsnap : snapshot (insertAll initialState ps) =
      ((historyFrom 1 ps).reverse).take 100 := insertAll_initial ps
  rw [hsnap, List.get?_take (by omega : k < 100),
    List.get?_reverse (by rw [historyFrom_length]; omega),
    historyFrom_length, historyFrom_get?]
  have harith : 1 + (ps.length - 1 - k) = ps.length - k := by omega
  rw [harith]

theorem insertAllIds_eq (ps : List PartialRecord) (s : ServerState) :
    insertAllIds s ps = List.range' s.nextID ps.length := by
  induction ps generalizing s with
  | nil => rfl
  | cons p ps ih =>
    simp only [insertAllIds, insert_returns, ih, insert_nextID,
      List.length_cons, List.range'_succ]

end MoreLemmas

/-- Two concrete requests used to instantiate the universally quantified
claims. -/
def sampleA : PartialRecord :=
  { method := "POST", url := "/hook", headers := [("Content-Type", "a")],
    body := "{}", timestamp := 5, remoteAddr := "10.0.0.1:1111" }

/-- A second concrete request, distinct from `sampleA` in every field. -/
def sampleB : PartialRecord :=
  { method := "GET", url := "/other", headers := [("X-Test", "b")],
    body := "hello", timestamp := 9, remoteAddr := "10.0.0.2:2222" }

/-- Claim C1: starting from the empty store, after any serial sequence of
`N` inserts (with no interleaved clears) the snapshot has exactly
`min N 100` elements; in particular it never exceeds 100 records. -/
theorem capacity_invariant (ps : List PartialRecord) :
    (snapshot (insertAll initialState ps)).length = min ps.length 100 :=
  snapshot_length ps

/-- Claim C2: after serialized inserts of `ps` from the empty store, entry
`k` of the snapshot is exactly the `(n-k)`-th inserted record (1-based),
carrying its assigned id `n-k` and all fields unchanged from insertion
time; in particular entry 0 is the last inserted record. -/
theorem newest_first_ordering (ps : List PartialRecord) (k : Nat)
    (hk : k < min ps.length 100) (p : PartialRecord)
    (hp : ps.get? (ps.length - 1 - k) = some p) :
    (snapshot (insertAll initialState ps)).get? k =
      some (mkRecord (ps.length - k) p) := by
  rw [snapshot_get? ps k hk, hp]
  rfl

/-- Witness for C2 at the concrete run `[sampleA, sampleB]`, `k = 0`: the
snapshot head is the second record with id 2 and untouched fields. -/
theorem newest_first_ordering_witness :
    (snapshot (insertAll initialState [sampleA, sampleB])).get? 0 =
      some (mkRecord 2 sampleB) :=
  newest_first_ordering [sampleA, sampleB] 0 (by decide) sampleB rfl

/-- Claim C3: the id counter starts at 1; every insert returns the current
counter value as the assigned id and advances the counter by exactly one
(truncation notwithstanding); clear never touches the counter; hence the
ids assigned along any serial run from the empty store are exactly
`1, 2, ..., N`, strictly increasing and never reused. -/
theorem id_assignment :
    initialState.nextID = 1 ∧
    (∀ (s : ServerState) (p : PartialRecord),
      (insert s p).2 = s.nextID ∧ (insert s p).1.nextID = s.nextID + 1) ∧
    (∀ s : ServerState, (clear s).nextID = s.nextID) ∧
    (∀ ps : List PartialRecord,
      insertAllIds initialState ps = List.range' 1 ps.length) :=
  ⟨rfl, fun _ _ => ⟨rfl, rfl⟩, fun _ => rfl,
   fun ps => insertAllIds_eq ps initialState⟩

/-- Claim C4: once more than 100 inserts have happened, the snapshot is
exactly the 100 most recently inserted records (newest first); after 150
inserts the snapshot has 100 elements with head id 150 and last id 51. -/
theorem eviction_order :
    (∀ ps : List PartialRecord, ps.length > 100 →
      snapshot (insertAll initialState ps) =
        ((historyFrom 1 ps).drop (ps.length - 100)).reverse) ∧
    (∀ ps : List PartialRecord, ps.length = 150 →
      (snapshot (insertAll initialState ps)).length = 100 ∧
      ((snapshot (insertAll initialState ps)).get? 0).map RequestInfo.id =
        some 150 ∧
      ((snapshot (insertAll initialState ps)).get? 99).map RequestInfo.id =
        some 51) := by
  constructor
  · intro ps _
    have hsnap : snapshot (insertAll initialState ps) =
        ((historyFrom 1 ps).reverse).take 100 := insertAll_initial ps
    rw [hsnap, List.take_reverse, historyFrom_length]
  · intro ps h150
    refine ⟨by rw [snapshot_length, h150]; omega, ?_, ?_⟩
    · have h149 : 149 < ps.length := by omega
      have hs := snapshot_get? ps 0 (by omega)
      rw [h150] at hs
      have e1 : (150 : Nat) - 1 - 0 = 149 := by omega
      have e2 : (150 : Nat) - 0 = 150 := by omega
      rw [e1, e2] at hs
      rw [hs, List.get?_eq_get h149]
      rfl
    · have h50 : 50 < ps.length := by omega
      have hs := snapshot_get? ps 99 (by omega)
      rw [h150] at hs
      have e3 : (150 : Nat) - 1 - 99 = 50 := by omega
      have e4 : (150 : Nat) - 99 = 51 := by omega
      rw [e3, e4] at hs
      rw [hs, List.get?_eq_get h50]
      rfl

/-- Witness for C4 at 150 copies of `sampleA`: 100 surviving records, head
id 150, last id 51, and the survivors are the 100 most recent. -/
theorem eviction_order_witness :
    ((snapshot (insertAll initialState (List.replicate 150 sampleA))).length
        = 100 ∧
      ((snapshot (insertAll initialState
        (List.replicate 150 sampleA))).get? 0).map RequestInfo.id =
        some 150 ∧
      ((snapshot (insertAll initialState
        (List.replicate 150 sampleA))).get? 99).map RequestInfo.id =
        some 51) ∧
    snapshot (insertAll initialState (List.replicate 150 sampleA)) =
      ((historyFrom 1 (List.replicate 150 sampleA)).drop
        ((List.replicate 150 sampleA).length - 100)).reverse :=
  ⟨eviction_order.2 (List.replicate 150 sampleA) (by simp),
   eviction_order.1 (List.replicate 150 sampleA) (by simp)⟩

/-- Claim C5: for every prior state, clearing then reading yields the
empty sequence, and clearing twice equals clearing once. -/
theorem clear_idempotent (s : ServerState) :
    snapshot (clear s) = [] ∧ clear (clear s) = clear s :=
  ⟨rfl, rfl⟩

/-- Claim C6: clear only empties the sequence and never touches the id
counter, so after three inserts from the empty store and a clear, the
next insert is assigned id 4. -/
theorem clear_preserves_counter :
    (∀ s : ServerState,
      (clear s).nextID = s.nextID ∧ (clear s).requests = []) ∧
    (∀ p1 p2 p3 p : PartialRecord,
      (insert (clear (insertAll initialState [p1, p2, p3])) p).2 = 4) :=
  ⟨fun _ => ⟨rfl, rfl⟩, fun _ _ _ _ => rfl⟩

/-- Claim C7: for every incoming header multimap in which each present
name carries at least one value (as HTTP guarantees), the flattening loop
succeeds and stores, for each name, exactly the first value of that name;
any further values are dropped. -/
theorem header_flattening (h : List (String × List String))
    (hne : ∀ kv ∈ h, kv.2 ≠ ([] : List String)) :
    flattenHeaders h =
      some (h.map (fun kv => (kv.1, kv.2.headD ""))) := by
  induction h with
  | nil => rfl
  | cons kv t ih =>
    obtain ⟨k, vs⟩ := kv
    have hv : vs ≠ [] := hne (k, vs) (by simp)
    obtain ⟨v, vs', rfl⟩ := List.exists_cons_of_ne_nil hv
    have iht := ih (fun kv hkv => hne kv (by simp [hkv]))
    simp only [flattenHeaders] at iht ⊢
    rw [List.mapM_cons, iht]
    rfl

/-- Witness for C7: a header with two values keeps only the first, a
header with one value keeps it. -/
theorem header_flattening_witness :
    flattenHeaders [("A", ["1", "2"]), ("B", ["3"])] =
      some [("A", "1"), ("B", "3")] :=
  header_flattening [("A", ["1", "2"]), ("B", ["3"])] (by decide)

/-- Claim C8: the core operations are total: for every state and record,
insert succeeds, returns the assigned id and places the new record at the
front (overflow is handled by truncating to 100, never by rejection), and
the read and clear paths always succeed. -/
theorem operations_total (s : ServerState) (p : PartialRecord) :
    (insert s p).2 = s.nextID ∧
    (insert s p).1.requests.get? 0 = some (mkRecord s.nextID p) ∧
    (insert s p).1.requests.length = min (s.requests.length + 1) 100 ∧
    getRequestsHandler s = (s, snapshot s) ∧
    (clear s).requests = [] := by
  refine ⟨rfl, ?_, ?_, rfl, rfl⟩
  · have hr : (insert s p).1.requests =
        (if (mkRecord s.nextID p :: s.requests).length > 100
         then (mkRecord s.nextID p :: s.requests).take 100
         else mkRecord s.nextID p :: s.requests) := rfl
    rw [hr]
    by_cases hc : (mkRecord s.nextID p :: s.requests).length > 100
    · rw [if_pos hc, List.get?_take (by omega : (0 : Nat) < 100)]
      rfl
    · rw [if_neg hc]
      rfl
  · have hr : (insert s p).1.requests =
        (if (mkRecord s.nextID p :: s.requests).length > 100
         then (mkRecord s.nextID p :: s.requests).take 100
         else mkRecord s.nextID p :: s.requests) := rfl
    rw [hr]
    by_cases hc : (mkRecord s.nextID p :: s.requests).length > 100
    · rw [if_pos hc, List.length_take]
      simp only [List.length_cons] at hc ⊢
      omega
    · rw [if_neg hc]
      simp only [List.length_cons] at hc ⊢
      omega

/-- Claim C9: hitting the clear endpoint with any method other than POST
answers 405 Method Not Allowed and leaves the whole state (sequence and
counter) unchanged; only POST empties the sequence, answering 200. -/
theorem clear_endpoint_method_guard (s : ServerState) (m : String) :
    (m ≠ "POST" → clearRequestsHandler m s = (s, 405)) ∧
    clearRequestsHandler "POST" s = ({ s with requests := [] }, 200) := by
  constructor
  · intro hm
    rw [clearRequestsHandler, if_pos hm]
  · rw [clearRequestsHandler]
    simp [clear]

/-- Witness for C9: a GET on the clear endpoint leaves the initial state
untouched with status 405, while a POST clears it with status 200. -/
theorem clear_endpoint_method_guard_witness :
    clearRequestsHandler "GET" initialState = (initialState, 405) ∧
    clearRequestsHandler "POST" initialState =
      ({ initialState with requests := [] }, 200) :=
  ⟨(clear_endpoint_method_guard initialState "GET").1 (by decide),
   (clear_endpoint_method_guard initialState "POST").2⟩

/-- Claim C10: the read path is a pure reader: it returns the state
unchanged together with the snapshot, and two consecutive reads with no
intervening mutation return equal sequences. -/
theorem snapshot_pure (s : ServerState) :
    (getRequestsHandler s).1 = s ∧
    (getRequestsHandler s).2 = snapshot s ∧
    (getRequestsHandler ((getRequestsHandler s).1)).2 =
      (getRequestsHandler s).2 :=
  ⟨rfl, rfl, rfl⟩
